import Mathlib

/-!
Verification development for the rust-wasm-lunatic-nats distributed-agent
runtime.  The definitions below are a shallow embedding of the Rust sources:

* src/lib.rs        — the Error taxonomy with is_retryable / retry_delay_ms
* src/memory.rs     — the MemoryBackend trait and the InMemoryBackend
* src/agent.rs      — AgentState: the two-tier state store and message handling
* src/supervisor.rs — AgentProcess: the router and the LLM task executor
* src/llm_client.rs — retry_llm_operation

JSON values (serde_json::Value) are embedded as the inductive Json below;
HashMap is embedded as an association list without duplicate keys (kvInsert
removes any previous binding, as HashMap insertion overwrites); external
effects (NATS publish, file writes, the host clock, UUID generation and the
process environment) are threaded explicitly as inputs and outputs.
-/

namespace LunaticNats

/-- Embedding of serde_json::Value.  Numbers are embedded as integers: no
claim of this development depends on float payloads. -/
inductive Json where
  | null : Json
  | bool (b : Bool) : Json
  | num (n : Int) : Json
  | str (s : String) : Json
  | arr (elems : List Json) : Json
  | obj (fields : List (String × Json)) : Json
deriving Repr

mutual

def Json.beq : Json → Json → Bool
  | .null, .null => true
  | .bool a, .bool b => a == b
  | .num a, .num b => a == b
  | .str a, .str b => a == b
  | .arr a, .arr b => Json.beqList a b
  | .obj a, .obj b => Json.beqFields a b
  | _, _ => false

def Json.beqList : List Json → List Json → Bool
  | [], [] => true
  | a :: as, b :: bs => Json.beq a b && Json.beqList as bs
  | _, _ => false

def Json.beqFields : List (String × Json) → List (String × Json) → Bool
  | [], [] => true
  | (ka, va) :: as, (kb, vb) :: bs => ka == kb && Json.beq va vb && Json.beqFields as bs
  | _, _ => false

end

mutual

theorem Json.beq_iff : ∀ a b : Json, Json.beq a b = true ↔ a = b
  | .null, .null => by simp [Json.beq]
  | .bool a, .bool b => by simp [Json.beq]
  | .num a, .num b => by simp [Json.beq]
  | .str a, .str b => by simp [Json.beq]
  | .arr a, .arr b => by
      simp only [Json.beq, Json.arr.injEq]
      exact Json.beqList_iff a b
  | .obj a, .obj b => by
      simp only [Json.beq, Json.obj.injEq]
      exact Json.beqFields_iff a b
  | .null, .bool _ | .null, .num _ | .null, .str _ | .null, .arr _ | .null, .obj _
  | .bool _, .null | .bool _, .num _ | .bool _, .str _ | .bool _, .arr _ | .bool _, .obj _
  | .num _, .null | .num _, .bool _ | .num _, .str _ | .num _, .arr _ | .num _, .obj _
  | .str _, .null | .str _, .bool _ | .str _, .num _ | .str _, .arr _ | .str _, .obj _
  | .arr _, .null | .arr _, .bool _ | .arr _, .num _ | .arr _, .str _ | .arr _, .obj _
  | .obj _, .null | .obj _, .bool _ | .obj _, .num _ | .obj _, .str _ | .obj _, .arr _ => by
      simp [Json.beq]

theorem Json.beqList_iff : ∀ a b : List Json, Json.beqList a b = true ↔ a = b
  | [], [] => by simp [Json.beqList]
  | [], _ :: _ => by simp [Json.beqList]
  | _ :: _, [] => by simp [Json.beqList]
  | a :: as, b :: bs => by
      simp only [Json.beqList, Bool.and_eq_true, List.cons.injEq]
      exact and_congr (Json.beq_iff a b) (Json.beqList_iff as bs)

theorem Json.beqFields_iff : ∀ a b : List (String × Json), Json.beqFields a b = true ↔ a = b
  | [], [] => by simp [Json.beqFields]
  | [], _ :: _ => by simp [Json.beqFields]
  | _ :: _, [] => by simp [Json.beqFields]
  | (ka, va) :: as, (kb, vb) :: bs => by
      simp only [Json.beqFields, Bool.and_eq_true, List.cons.injEq, Prod.mk.injEq, beq_iff_eq]
      exact and_congr (and_congr Iff.rfl (Json.beq_iff va vb)) (Json.beqFields_iff as bs)

end

instance : DecidableEq Json := fun a b => decidable_of_iff _ (Json.beq_iff a b)

deriving instance DecidableEq for Except

/-- Lookup in an association list, first binding wins (HashMap::get /
serde_json Map::get). -/
def kvLookup {α : Type} : List (String × α) → String → Option α
  | [], _ => none
  | (k, v) :: rest, key => if k = key then some v else kvLookup rest key

/-- Remove every binding of a key (helper for kvInsert / HashMap::remove). -/
def kvErase {α : Type} (key : String) : List (String × α) → List (String × α)
  | [] => []
  | (k, v) :: rest => if k = key then kvErase key rest else (k, v) :: kvErase key rest

/-- Map insertion overwriting any previous binding (HashMap::insert). -/
def kvInsert {α : Type} (key : String) (v : α) (m : List (String × α)) : List (String × α) :=
  (key, v) :: kvErase key m

/-- Key enumeration (HashMap::keys). -/
def kvKeys {α : Type} (m : List (String × α)) : List String :=
  m.map Prod.fst

/-- Access a JSON object field (serde_json::Value::get on a map). -/
def Json.get (j : Json) (key : String) : Option Json :=
  match j with
  | .obj fields => kvLookup fields key
  | _ => none

/-- Value::as_str. -/
def Json.asStr : Json → Option String
  | .str s => some s
  | _ => none

/-- Value::as_array. -/
def Json.asArray : Json → Option (List Json)
  | .arr xs => some xs
  | _ => none

/-- Value::as_object. -/
def Json.asObj : Json → Option (List (String × Json))
  | .obj fields => some fields
  | _ => none

/-- Does a character list start with the pattern (str::starts_with at one
position)? -/
def charsStartWith : List Char → List Char → Bool
  | [], _ => true
  | _ :: _, [] => false
  | p :: ps, c :: cs => p == c && charsStartWith ps cs

/-- Substring occurrence test over character lists (str::contains). -/
def charsContain (pat : List Char) : List Char → Bool
  | [] => charsStartWith pat []
  | c :: cs => charsStartWith pat (c :: cs) || charsContain pat cs

/-- String version of `charsStartWith` (str::starts_with). -/
def strStartsWith (p s : String) : Bool :=
  charsStartWith p.data s.data

/-- String version of `charsContain` (str::contains). -/
def strContains (pat s : String) : Bool :=
  charsContain pat.data s.data

/-- Drop a leading pattern from a character list, if it is there
(str::strip_prefix). -/
def charsDropLead : List Char → List Char → Option (List Char)
  | [], s => some s
  | _ :: _, [] => none
  | p :: ps, c :: cs => if p = c then charsDropLead ps cs else none

/-- String version of `charsDropLead` (str::strip_prefix). -/
def strDropLead (p s : String) : Option String :=
  (charsDropLead p.data s.data).map (fun cs => String.mk cs)

mutual

/-- Does any string scalar or field name inside a JSON value contain the
given pattern?  Used to look for the embedded fallback marker. -/
def jsonMentions (pat : String) : Json → Bool
  | .null => false
  | .bool _ => false
  | .num _ => false
  | .str s => strContains pat s
  | .arr xs => jsonMentionsList pat xs
  | .obj fs => jsonMentionsFields pat fs

/-- List companion of `jsonMentions`. -/
def jsonMentionsList (pat : String) : List Json → Bool
  | [] => false
  | x :: xs => jsonMentions pat x || jsonMentionsList pat xs

/-- Field companion of `jsonMentions`. -/
def jsonMentionsFields (pat : String) : List (String × Json) → Bool
  | [] => false
  | (k, v) :: fs => strContains pat k || jsonMentions pat v || jsonMentionsFields pat fs

end

mutual

/-- Compact JSON rendering (serde_json::to_string; the source also uses
to_string_pretty, rendered compactly here — only the marker-free text
content matters to the claims). -/
def jsonSerialize : Json → String
  | .null => "null"
  | .bool b => if b then "true" else "false"
  | .num n => toString n
  | .str s => "\"" ++ s ++ "\""
  | .arr xs => "[" ++ jsonSerializeList xs ++ "]"
  | .obj fs => "\x7b" ++ jsonSerializeFields fs ++ "\x7d"

/-- Comma-joined rendering of array elements. -/
def jsonSerializeList : List Json → String
  | [] => ""
  | [x] => jsonSerialize x
  | x :: y :: rest => jsonSerialize x ++ "," ++ jsonSerializeList (y :: rest)

/-- Comma-joined rendering of object fields. -/
def jsonSerializeFields : List (String × Json) → String
  | [] => ""
  | [(k, v)] => "\"" ++ k ++ "\":" ++ jsonSerialize v
  | (k, v) :: y :: rest => "\"" ++ k ++ "\":" ++ jsonSerialize v ++ "," ++ jsonSerializeFields (y :: rest)

end

/-- A single-quote character as a string (kept out of string literals). -/
def sq : String :=
  String.mk [Char.ofNat 39]

/-- Error taxonomy of src/lib.rs (enum Error).  Payloads that are only
displayed are kept as strings; the LLMTimeout duration is in seconds. -/
inductive Error where
  | Nats (msg : String)
  | Serialization (msg : String)
  | Io (msg : String)
  | Custom (msg : String)
  | LLMProvider (msg : String)
  | LLMTimeout (timeout : Nat)
  | LLMRateLimit (msg : String)
  | LLMResponseFormat (msg : String)
  | WorkflowValidation (msg : String)
deriving DecidableEq, Repr

/-- Error::is_retryable from src/lib.rs. -/
def Error.is_retryable : Error → Bool
  | .LLMTimeout _ => true
  | .LLMRateLimit _ => true
  | .Nats _ => true
  | _ => false

/-- Error::retry_delay_ms from src/lib.rs. -/
def Error.retry_delay_ms : Error → Nat
  | .LLMTimeout _ => 1000
  | .LLMRateLimit _ => 5000
  | .Nats _ => 500
  | _ => 0

/-- Display of an error (the thiserror-generated messages of src/lib.rs),
used where the Rust code formats an error into content. -/
def Error.msg : Error → String
  | .Nats m => "NATS error: " ++ m
  | .Serialization m => "Serialization error: " ++ m
  | .Io m => "I/O error: " ++ m
  | .Custom m => "Custom error: " ++ m
  | .LLMProvider m => "LLM provider error: " ++ m
  | .LLMTimeout t => "LLM API timeout after " ++ toString t ++ "s"
  | .LLMRateLimit m => "LLM rate limit exceeded: " ++ m
  | .LLMResponseFormat m => "Invalid LLM response format: " ++ m
  | .WorkflowValidation m => "Workflow validation error: " ++ m

/-- Embedding of retry_llm_operation from src/llm_client.rs.  The wrapped
operation is modelled as a function from the attempt index to that
attempt's outcome; the second component of the result counts the total
number of attempts made.  Mirrors the source loop
`for attempt in 0..=max_retries`, which retries exactly when
`attempt < max_retries && error.is_retryable()`; the backoff sleep has no
functional effect and is not modelled. -/
def retryAux {α : Type} (op : Nat → Except Error α) (max_retries : Nat)
    (attempt : Nat) : Except Error α × Nat :=
  match op attempt with
  | .ok r => (.ok r, attempt + 1)
  | .error e =>
    if attempt < max_retries ∧ e.is_retryable = true then
      retryAux op max_retries (attempt + 1)
    else
      (.error e, attempt + 1)
termination_by max_retries + 1 - attempt
decreasing_by
  simp_wf
  omega

/-- retry_llm_operation itself: run from attempt 0. -/
def retry_llm_operation {α : Type} (op : Nat → Except Error α) (max_retries : Nat) :
    Except Error α × Nat :=
  retryAux op max_retries 0

/-- Embedding of the MemoryBackend trait of src/memory.rs.  A backend is a
state type σ together with the five fallible operations; operations taking
&mut self return the possibly-updated backend state. -/
structure Backend (σ : Type) where
  store : σ → String → Json → Except Error σ
  retrieve : σ → String → Except Error (Option Json × σ)
  delete : σ → String → Except Error (Bool × σ)
  list_keys : σ → Option String → Except Error (List String)
  clear : σ → Except Error σ

/-- Backend state of the InMemoryBackend of src/memory.rs: a plain map. -/
abbrev MemMap : Type :=
  List (String × Json)

/-- Embedding of `impl MemoryBackend for InMemoryBackend` (src/memory.rs):
every operation succeeds; store overwrites, retrieve clones, delete reports
whether the key was present, list_keys filters by the optional prefix
argument, clear empties the map. -/
def inMemoryBackend : Backend MemMap where
  store s key v := .ok (kvInsert key v s)
  retrieve s key := .ok (kvLookup s key, s)
  delete s key := .ok ((kvLookup s key).isSome, kvErase key s)
  list_keys s p := .ok (match p with
    | some pre => (kvKeys s).filter (fun k => strStartsWith pre k)
    | none => kvKeys s)
  clear _ := .ok []

/-- StateAction of src/agent.rs. -/
inductive StateAction where
  | store (key : String) (value : Json)
  | get (key : String)
  | delete (key : String)
  | clear
  | list
deriving Repr, DecidableEq

/-- Embedding of serde deserialization of StateAction from a JSON payload
(the derived Deserialize of the externally tagged enum, in its canonical
JSON form): a unit variant is a string (or a single-entry map with null
content), a struct variant is a single-entry map whose content holds the
required fields; anything else fails to deserialize and yields none. -/
def parseStateAction (j : Json) : Option StateAction :=
  match j with
  | .str s =>
    if s = "Clear" then some .clear
    else if s = "List" then some .list
    else none
  | .obj [(tag, content)] =>
    if tag = "Store" then
      match content.get "key", content.get "value" with
      | some (.str k), some v => some (.store k v)
      | _, _ => none
    else if tag = "Get" then
      match content.get "key" with
      | some (.str k) => some (.get k)
      | _ => none
    else if tag = "Delete" then
      match content.get "key" with
      | some (.str k) => some (.delete k)
      | _ => none
    else if tag = "Clear" then
      match content with
      | .null => some .clear
      | _ => none
    else if tag = "List" then
      match content with
      | .null => some .list
      | _ => none
    else none
  | _ => none

/-- Message of src/agent.rs.  AgentId is an opaque string; the sender field
is called from_ because from is a Lean keyword. -/
structure Message where
  id : String
  from_ : String
  to_ : String
  payload : Json
  timestamp : Nat
deriving Repr, DecidableEq

/-- AgentState of src/agent.rs: the two-tier store.  The nats flag records
whether a NATS transport collaborator is configured (self.nats.is_some()).
The backend state is carried explicitly. -/
structure AgentState (σ : Type) where
  id : String
  ephemeral_state : List (String × Json)
  backendState : σ
  nats : Bool
deriving Repr, DecidableEq

/-- Embedding of AgentState::handle_state_action (src/agent.rs).  The
returned Option Json is the value the Get branch observes (the source only
logs it); every other branch observes none.  On the error paths exercised
below, the Rust &mut state is as before the failing backend call. -/
def handle_state_action {σ : Type} (B : Backend σ) (st : AgentState σ) :
    StateAction → Except Error (AgentState σ × Option Json)
  | .store key v =>
    let st1 : AgentState σ := { st with ephemeral_state := kvInsert key v st.ephemeral_state }
    match B.store st.backendState (st.id ++ ":" ++ key) v with
    | .ok s2 => .ok ({ st1 with backendState := s2 }, none)
    | .error e => .error e
  | .get key =>
    match kvLookup st.ephemeral_state key with
    | some v => .ok (st, some v)
    | none =>
      match B.retrieve st.backendState (st.id ++ ":" ++ key) with
      | .ok (some v, s2) =>
        .ok ({ st with ephemeral_state := kvInsert key v st.ephemeral_state,
                       backendState := s2 }, some v)
      | .ok (none, s2) => .ok ({ st with backendState := s2 }, none)
      | .error e => .error e
  | .delete key =>
    let st1 : AgentState σ := { st with ephemeral_state := kvErase key st.ephemeral_state }
    match B.delete st.backendState (st.id ++ ":" ++ key) with
    | .ok (_, s2) => .ok ({ st1 with backendState := s2 }, none)
    | .error e => .error e
  | .clear =>
    match B.clear st.backendState with
    | .ok s2 => .ok ({ st with ephemeral_state := [], backendState := s2 }, none)
    | .error e => .error e
  | .list => .ok (st, none)

/-- Loop of AgentState::save_persistent_state: write each ephemeral entry
through to the backend under the agent-qualified key, propagating the
first backend error. -/
def saveLoop {σ : Type} (B : Backend σ) (idStr : String) :
    List (String × Json) → σ → Except Error σ
  | [], s => .ok s
  | (k, v) :: rest, s =>
    match B.store s (idStr ++ ":" ++ k) v with
    | .ok s2 => saveLoop B idStr rest s2
    | .error e => .error e

/-- Embedding of AgentState::save_persistent_state (src/agent.rs). -/
def save_persistent_state {σ : Type} (B : Backend σ) (st : AgentState σ) :
    Except Error (AgentState σ) :=
  match saveLoop B st.id st.ephemeral_state st.backendState with
  | .ok s2 => .ok { st with backendState := s2 }
  | .error e => .error e

/-- Loop of AgentState::load_persistent_state over the listed keys: strip
the agent prefix, retrieve the full key and cache the value. -/
def loadLoop {σ : Type} (B : Backend σ) (pre : String) (st : AgentState σ) :
    List String → Except Error (AgentState σ)
  | [] => .ok st
  | key :: rest =>
    match strDropLead pre key with
    | some localKey =>
      match B.retrieve st.backendState key with
      | .ok (some v, s2) =>
        loadLoop B pre { st with ephemeral_state := kvInsert localKey v st.ephemeral_state,
                                 backendState := s2 } rest
      | .ok (none, s2) => loadLoop B pre { st with backendState := s2 } rest
      | .error e => .error e
    | none => loadLoop B pre st rest

/-- Embedding of AgentState::load_persistent_state (src/agent.rs). -/
def load_persistent_state {σ : Type} (B : Backend σ) (st : AgentState σ) :
    Except Error (AgentState σ) :=
  let pre := st.id ++ ":"
  match B.list_keys st.backendState (some pre) with
  | .ok keys => loadLoop B pre st keys
  | .error e => .error e

/-- Embedding of AgentState::process_application_message (src/agent.rs):
store the payload under the sender-qualified last_message key, then react to the
optional "type" field; the shutdown type saves state and returns the
Custom("Shutdown requested") error.  The second result component lists
the (subject, message) pairs published on NATS (none here). -/
def process_application_message {σ : Type} (B : Backend σ) (st : AgentState σ)
    (m : Message) : Except Error (AgentState σ × List (String × Message)) :=
  let st1 : AgentState σ :=
    { st with ephemeral_state :=
        kvInsert ("last_message_from_" ++ m.from_) m.payload st.ephemeral_state }
  match (m.payload.get "type").bind Json.asStr with
  | some "ping" => .ok (st1, [])
  | some "data_update" =>
    match m.payload.get "data" with
    | some d =>
      .ok ({ st1 with ephemeral_state := kvInsert "received_data" d st1.ephemeral_state }, [])
    | none => .ok (st1, [])
  | some "shutdown" =>
    match save_persistent_state B st1 with
    | .ok _ => .error (.Custom "Shutdown requested")
    | .error e => .error e
  | _ => .ok (st1, [])

/-- Embedding of AgentState::handle_message (src/agent.rs).  Order matters:
first try deserializing the payload as a StateAction; then, when a NATS
transport is configured and the destination is another agent, forward the
serialized message on the destination-derived agent subject and stop; otherwise process the
message locally.  The NATS publish is modelled as succeeding and being
recorded in the output list (a publish failure would only change the
returned error, never the local state). -/
def handle_message {σ : Type} (B : Backend σ) (st : AgentState σ) (m : Message) :
    Except Error (AgentState σ × List (String × Message)) :=
  match parseStateAction m.payload with
  | some a =>
    match handle_state_action B st a with
    | .ok (st2, _) => .ok (st2, [])
    | .error e => .error e
  | none =>
    if st.nats = true ∧ m.to_ ≠ st.id then
      .ok (st, [("agent." ++ m.to_, m)])
    else
      process_application_message B st m

/-- MemoryBackendType of src/supervisor.rs. -/
inductive MemoryBackendType where
  | inMemory
  | file (path : String)
deriving Repr, DecidableEq

/-- AgentType of src/supervisor.rs. -/
inductive AgentType where
  | dataCollector
  | summarizer
  | workflowCoordinator
  | webScraper
  | generic
deriving Repr, DecidableEq

/-- AgentConfig of src/supervisor.rs. -/
structure AgentConfig where
  id : String
  memory_backend_type : MemoryBackendType
  nats_enabled : Bool
  llm_enabled : Bool
  agent_type : AgentType
deriving Repr, DecidableEq

/-- AgentProcess of src/supervisor.rs: the lunatic AbstractProcess state. -/
structure AgentProcess where
  id : String
  state : List (String × Json)
  message_count : Nat
  config : AgentConfig
  llm_operations : List (String × String)
deriving Repr, DecidableEq

/-- Readings of the process environment consulted by the LLM task executor
(std::env::var in src/supervisor.rs). -/
structure LlmEnv where
  openai_api_key : Option String
  anthropic_api_key : Option String
  browserbase_api_key : Option String
deriving Repr, DecidableEq

/-- Host clock readings (chrono::Utc::now), threaded explicitly: the
millisecond timestamp and its RFC 3339 rendering. -/
structure Clock where
  millis : Int
  rfc3339 : String
deriving Repr, DecidableEq

/-- Item count used by the summarization task: data.as_array() length, or 1
for a non-array value. -/
def dataCount (data : Json) : Nat :=
  match data.asArray with
  | some a => a.length
  | none => 1

/-- One source block of AgentProcess::prepare_data_for_llm.  The source
truncates content at 1000 bytes; here at 1000 characters. -/
def prepareItem (i : Nat) (item : Json) : String :=
  let c0 := "\n--- Source " ++ toString (i + 1) ++ " ---\n"
  let c1 := match (item.get "title").bind Json.asStr with
    | some t => c0 ++ "Title: " ++ t ++ "\n"
    | none => c0
  let c2 := match (item.get "url").bind Json.asStr with
    | some u => c1 ++ "URL: " ++ u ++ "\n"
    | none => c1
  let c3 := match (item.get "content").bind Json.asStr with
    | some tc =>
      let truncated := if tc.length > 1000 then tc.take 1000 ++ "... [truncated]" else tc
      c2 ++ "Content: " ++ truncated ++ "\n"
    | none => c2
  match item.get "metadata" with
  | some md =>
    match (md.get "description").bind Json.asStr with
    | some d => if d.length ≠ 0 then c3 ++ "Description: " ++ d ++ "\n" else c3
    | none => c3
  | none => c3

/-- AgentProcess::prepare_data_for_llm (src/supervisor.rs). -/
def prepare_data_for_llm (data : Json) : String :=
  match data.asArray with
  | some arr => String.join (arr.enum.map (fun p => prepareItem p.1 p.2))
  | none => "Data item: " ++ jsonSerialize data

/-- AgentProcess::create_data_preview (src/supervisor.rs). -/
def create_data_preview (data : Json) : String :=
  match data.asArray with
  | some [] => "Empty data array"
  | some (x :: _) => "First item preview: " ++ (jsonSerialize x).take 100
  | none => "Data preview: " ++ (jsonSerialize data).take 100

/-- System message of the OpenAI request payload built by
AgentProcess::make_real_openai_request. -/
def openaiSystemPrompt : String :=
  "You are a professional data analyst specializing in web scraping analysis. Provide concise, actionable insights from the scraped web content."

/-- OpenAI request payload of AgentProcess::make_real_openai_request.  The
temperature 0.7 is a float in the source; floats do not embed, so it is
carried as literal text — the payload is serialized for the wire and never
inspected by the core logic. -/
def openaiRequestPayload (data : Json) : Json :=
  .obj [("model", .str "gpt-3.5-turbo"),
        ("messages", .arr [
          .obj [("role", .str "system"), ("content", .str openaiSystemPrompt)],
          .obj [("role", .str "user"),
                ("content", .str ("Please analyze this web scraping data and provide key insights:\n\n"
                  ++ prepare_data_for_llm data))]]),
        ("max_tokens", .num 1000),
        ("temperature", .str "0.7")]

/-- Canned response returned by AgentProcess::execute_browserbase_request
(the source simulates the BrowserBase round trip and always succeeds). -/
def browserbaseRealisticResponse : String :=
  "Based on the distributed web scraping data analysis:\n\n**System Architecture Analysis:**\n• Lunatic WebAssembly runtime provides excellent process isolation and fault tolerance\n• Message-passing concurrency enables scalable agent coordination across distributed nodes  \n• Cross-platform HTTP client abstraction supports seamless deployment scenarios\n• Real-time LLM integration demonstrates production-ready intelligent processing capabilities\n\n**Performance Characteristics:**\n• WebAssembly execution offers near-native performance with memory safety guarantees\n• Agent supervisor trees ensure system resilience and automatic failure recovery\n• Async/sync bridge patterns facilitate smooth API integration without blocking operations\n• Persistent state management provides operational continuity across system restarts\n\n**Production Readiness Assessment:**\n• The architecture demonstrates enterprise-grade distributed computing patterns\n• Fault-tolerant design supports large-scale web scraping operations\n• Intelligent content processing via LLM integration adds significant business value\n• Modular agent design enables horizontal scaling and workload distribution\n\n**Strategic Recommendations:**\n1. Implement circuit breaker patterns for enhanced API reliability\n2. Add comprehensive monitoring and metrics collection\n3. Consider implementing rate limiting and request queuing for production workloads\n4. Integrate advanced NLP preprocessing for improved content extraction accuracy\n\nThis system represents a sophisticated distributed computing platform suitable for production web scraping and intelligent data processing workflows."

/-- Local response of AgentProcess::send_fallback_openai_response. -/
def sendFallbackOpenaiResponse : String :=
  "[FALLBACK] Distributed agent system analysis: This WebAssembly-based architecture demonstrates fault-tolerant message passing, scalable agent coordination, and intelligent content processing. The system successfully integrates real-time LLM capabilities with production-ready distributed computing patterns."

/-- AgentProcess::send_openai_request (src/supervisor.rs): serialize the
payload (infallible for these values), then either run the simulated
BrowserBase request (non-empty BROWSERBASE_API_KEY) or fall back to the
local canned response; both succeed. -/
def send_openai_request (env : LlmEnv) (payload : Json) : Except Error String :=
  let _payload_str := jsonSerialize payload
  match env.browserbase_api_key with
  | some key =>
    if key.length ≠ 0 then
      .ok ("[BROWSERBASE-OPENAI] " ++ browserbaseRealisticResponse)
    else
      .ok sendFallbackOpenaiResponse
  | none => .ok sendFallbackOpenaiResponse

/-- AgentProcess::make_real_openai_request (src/supervisor.rs). -/
def make_real_openai_request (env : LlmEnv) (data : Json) : Except Error String :=
  let request_payload := openaiRequestPayload data
  match send_openai_request env request_payload with
  | .ok response => .ok response
  | .error e => .error (.Custom ("OpenAI API request failed: " ++ e.msg))

/-- High-quality simulated response substituted inside
try_real_llm_summarization when the API key exists but the call fails
(note: the executor then records the operation as completed, not as
completed_fallback, because this string is returned as a success). -/
def apiFailedFallbackSummary (data : Json) (e : Error) : String :=
  "[API-FAILED-FALLBACK] Professional Summary Analysis:\n\n📊 **Data Overview**: Analyzed "
  ++ toString (dataCount data)
  ++ " data points from distributed web scraping operation.\n\n🔍 **Key Insights**:\n- Demonstrates advanced distributed computing architecture using Lunatic WebAssembly runtime\n- Features cross-platform HTTP client abstraction for seamless native/WASM deployment\n- Implements fault-tolerant agent coordination with message-passing concurrency\n- Utilizes real-time LLM integration capabilities for intelligent data processing\n\n⚡ **Technical Highlights**:\n- Process isolation ensures system reliability and fault tolerance\n- Message-based communication enables scalable agent coordination\n- Async/sync bridge patterns facilitate seamless LLM API integration\n- Persistent state management provides operational continuity\n\n📝 **Data Sample**: "
  ++ create_data_preview data
  ++ "\n\n✅ **Recommendation**: This architecture represents a production-ready distributed system suitable for large-scale web scraping and intelligent content analysis workflows.\n\n*Note: API call failed with error: "
  ++ e.msg
  ++ ". Using high-fidelity simulation.*"

/-- AgentProcess::try_real_llm_summarization (src/supervisor.rs): fail when
OPENAI_API_KEY is absent or shorter than 10 characters; otherwise make the
(simulated) request, converting a request failure into the success-shaped
API-failed fallback string.  The std::env::var error for an unset variable
displays as shown. -/
def try_real_llm_summarization (env : LlmEnv) (data : Json) : Except Error String :=
  match env.openai_api_key with
  | some api_key =>
    if api_key.length = 0 ∨ api_key.length < 10 then
      .error (.Custom "OPENAI_API_KEY is invalid or too short")
    else
      match make_real_openai_request env data with
      | .ok response => .ok response
      | .error e => .ok (apiFailedFallbackSummary data e)
  | none =>
    .error (.Custom "OPENAI_API_KEY environment variable not set: environment variable not found")

/-- Fallback summary synthesized by AgentProcess::handle_summarization_task
when the provider abstraction fails. -/
def mockSummary (data_count : Nat) : String :=
  "[FALLBACK] Enhanced summary: Analyzed " ++ toString data_count
  ++ " data items. Advanced insights: distributed agent architecture, cross-platform LLM integration, WASM performance optimization, HTTP client abstraction."

/-- AgentProcess::handle_summarization_task (src/supervisor.rs).  The second
result component counts provider-abstraction calls (invocations of
try_real_llm_summarization).  The save_summary_to_file helper only writes
a file and logs; it never changes agent state and its errors are absorbed,
so it is not modelled.  The handler returns unit in the source: no error
ever reaches the router. -/
def handle_summarization_task (env : LlmEnv) (ag : AgentProcess) (payload : Json)
    (operation_id : String) : AgentProcess × Nat :=
  match payload.get "data" with
  | some data =>
    let data_count := dataCount data
    match try_real_llm_summarization env data with
    | .ok summary =>
      ({ ag with state := kvInsert "last_summary" (.str summary) ag.state,
                 llm_operations := kvInsert operation_id "completed" ag.llm_operations }, 1)
    | .error _ =>
      let mock_summary := mockSummary data_count
      ({ ag with state := kvInsert "last_summary" (.str mock_summary) ag.state,
                 llm_operations := kvInsert operation_id "completed_fallback" ag.llm_operations }, 1)
  | none =>
    ({ ag with llm_operations := kvInsert operation_id "failed" ag.llm_operations }, 0)

/-- Enhanced fallback workflow plan of
AgentProcess::handle_workflow_planning_task: the fixed 4-step generic
pipeline. -/
def enhancedFallbackWorkflow : Json :=
  .arr [
    .obj [("step_id", .str "1"), ("agent_type", .str "data_collector"),
          ("action", .str "collect_data"),
          ("inputs", .arr [.str "source_urls", .str "scraping_config"]),
          ("outputs", .arr [.str "raw_data", .str "metadata"]),
          ("priority", .str "high"), ("estimated_duration", .str "30s")],
    .obj [("step_id", .str "2"), ("agent_type", .str "processor"),
          ("action", .str "process_data"),
          ("inputs", .arr [.str "raw_data", .str "processing_rules"]),
          ("outputs", .arr [.str "processed_data", .str "quality_metrics"]),
          ("priority", .str "high"), ("estimated_duration", .str "45s")],
    .obj [("step_id", .str "3"), ("agent_type", .str "summarizer"),
          ("action", .str "generate_summary"),
          ("inputs", .arr [.str "processed_data", .str "summary_template"]),
          ("outputs", .arr [.str "final_summary", .str "key_insights"]),
          ("priority", .str "medium"), ("estimated_duration", .str "60s")],
    .obj [("step_id", .str "4"), ("agent_type", .str "coordinator"),
          ("action", .str "validate_results"),
          ("inputs", .arr [.str "final_summary", .str "quality_metrics"]),
          ("outputs", .arr [.str "validated_output", .str "completion_report"]),
          ("priority", .str "low"), ("estimated_duration", .str "15s")]]

/-- Simulated intelligent workflow returned by
AgentProcess::try_real_llm_workflow_planning when an API key is present. -/
def intelligentWorkflow : Json :=
  .arr [
    .obj [("step_id", .str "analysis_1"), ("agent_type", .str "data_collector"),
          ("action", .str "intelligent_data_extraction"),
          ("inputs", .arr [.str "source_urls", .str "extraction_patterns", .str "quality_thresholds"]),
          ("outputs", .arr [.str "structured_data", .str "confidence_scores", .str "metadata"]),
          ("priority", .str "critical"), ("estimated_duration", .str "25s"),
          ("llm_enhanced", .bool true)],
    .obj [("step_id", .str "processing_2"), ("agent_type", .str "ml_processor"),
          ("action", .str "semantic_processing"),
          ("inputs", .arr [.str "structured_data", .str "domain_ontology", .str "context_embeddings"]),
          ("outputs", .arr [.str "enriched_data", .str "semantic_annotations", .str "relationship_graph"]),
          ("priority", .str "critical"), ("estimated_duration", .str "40s"),
          ("llm_enhanced", .bool true)],
    .obj [("step_id", .str "synthesis_3"), ("agent_type", .str "llm_summarizer"),
          ("action", .str "contextual_synthesis"),
          ("inputs", .arr [.str "enriched_data", .str "user_intent", .str "output_format"]),
          ("outputs", .arr [.str "comprehensive_summary", .str "actionable_insights", .str "follow_up_questions"]),
          ("priority", .str "high"), ("estimated_duration", .str "50s"),
          ("llm_enhanced", .bool true)],
    .obj [("step_id", .str "validation_4"), ("agent_type", .str "qa_coordinator"),
          ("action", .str "multi_dimensional_validation"),
          ("inputs", .arr [.str "comprehensive_summary", .str "quality_criteria", .str "fact_checking_sources"]),
          ("outputs", .arr [.str "validated_output", .str "quality_report", .str "improvement_suggestions"]),
          ("priority", .str "medium"), ("estimated_duration", .str "20s"),
          ("llm_enhanced", .bool false)]]

/-- AgentProcess::try_real_llm_workflow_planning (src/supervisor.rs): the
task description and agent list are received but unused by the simulated
call; success iff some LLM API key environment variable is set. -/
def try_real_llm_workflow_planning (env : LlmEnv) (_task_desc : String)
    (_available_agents : List Json) : Except Error Json :=
  if env.openai_api_key.isSome || env.anthropic_api_key.isSome then
    .ok intelligentWorkflow
  else
    .error (.Custom "No LLM API keys configured for workflow planning")

/-- AgentProcess::handle_workflow_planning_task (src/supervisor.rs). -/
def handle_workflow_planning_task (env : LlmEnv) (ag : AgentProcess) (payload : Json)
    (operation_id : String) : AgentProcess × Nat :=
  match (payload.get "task_description").bind Json.asStr with
  | some task_desc =>
    let available_agents := ((payload.get "available_agents").bind Json.asArray).getD []
    match try_real_llm_workflow_planning env task_desc available_agents with
    | .ok workflow_plan =>
      ({ ag with state := kvInsert "workflow_plan" workflow_plan ag.state,
                 llm_operations := kvInsert operation_id "completed" ag.llm_operations }, 1)
    | .error _ =>
      ({ ag with state := kvInsert "workflow_plan" enhancedFallbackWorkflow ag.state,
                 llm_operations := kvInsert operation_id "completed_fallback" ag.llm_operations }, 1)
  | none =>
    ({ ag with llm_operations := kvInsert operation_id "failed" ag.llm_operations }, 0)

/-- Simulated reasoning text returned by AgentProcess::try_real_llm_reasoning
when an API key is present. -/
def intelligentReasoning (prompt : String) (context : Json) : String :=
  "[REAL-LLM-READY] Advanced reasoning analysis for: " ++ sq ++ prompt ++ sq
  ++ " | Context-aware strategic insight: This distributed agent system exemplifies modern software architecture principles combining WebAssembly"
  ++ sq
  ++ "s performance benefits with Lunatic"
  ++ sq
  ++ "s actor model concurrency. The cross-platform HTTP client abstraction enables seamless LLM integration across native and WASM environments. Key architectural decisions include: 1) Process isolation for fault tolerance, 2) Message-passing for scalable coordination, 3) Async/sync bridge patterns for LLM integration, 4) Persistent state management for reliability. Recommended optimizations: Implement circuit breaker patterns for LLM API calls, add request queuing for rate limiting, enhance error recovery with exponential backoff, and consider implementing distributed consensus for critical state transitions. Context integration: "
  ++ jsonSerialize context

/-- AgentProcess::try_real_llm_reasoning (src/supervisor.rs). -/
def try_real_llm_reasoning (env : LlmEnv) (prompt : String) (context : Json) :
    Except Error String :=
  if env.openai_api_key.isSome || env.anthropic_api_key.isSome then
    .ok (intelligentReasoning prompt context)
  else
    .error (.Custom "No LLM API keys configured for reasoning")

/-- Enhanced fallback reasoning synthesized by
AgentProcess::handle_reasoning_task when the provider abstraction fails. -/
def enhancedFallbackReasoning (prompt : String) : String :=
  "[ENHANCED-FALLBACK] Deep reasoning analysis for prompt: " ++ sq ++ prompt ++ sq
  ++ " | Strategic recommendation: Implement a multi-tier distributed system leveraging Lunatic"
  ++ sq
  ++ "s process isolation for fault tolerance, utilize WASM compilation for cross-platform deployment, integrate LLM capabilities through HTTP client abstraction for intelligent decision-making, employ message-passing concurrency patterns to ensure scalability, and maintain state consistency through persistent backends with proper error recovery mechanisms."

/-- AgentProcess::handle_reasoning_task (src/supervisor.rs). -/
def handle_reasoning_task (env : LlmEnv) (ag : AgentProcess) (payload : Json)
    (operation_id : String) : AgentProcess × Nat :=
  match (payload.get "prompt").bind Json.asStr with
  | some prompt =>
    let context := (payload.get "context").getD (Json.obj [])
    match try_real_llm_reasoning env prompt context with
    | .ok reasoning_result =>
      ({ ag with state := kvInsert "last_reasoning" (.str reasoning_result) ag.state,
                 llm_operations := kvInsert operation_id "completed" ag.llm_operations }, 1)
    | .error _ =>
      ({ ag with state := kvInsert "last_reasoning" (.str (enhancedFallbackReasoning prompt)) ag.state,
                 llm_operations := kvInsert operation_id "completed_fallback" ag.llm_operations }, 1)
  | none =>
    ({ ag with llm_operations := kvInsert operation_id "failed" ag.llm_operations }, 0)

/-- AgentProcess::handle_llm_task (src/supervisor.rs): mint the operation
record with status processing (the operation id is the freshly generated
UUID, threaded as an input), then dispatch on the llm_task discriminant;
an unknown task kind is recorded as failed. -/
def handle_llm_task (env : LlmEnv) (ag : AgentProcess) (payload : Json)
    (operation_id : String) : AgentProcess × Nat :=
  let task_type := ((payload.get "llm_task").bind Json.asStr).getD "unknown"
  let ag1 : AgentProcess :=
    { ag with llm_operations := kvInsert operation_id "processing" ag.llm_operations }
  match task_type with
  | "summarize" => handle_summarization_task env ag1 payload operation_id
  | "plan_workflow" => handle_workflow_planning_task env ag1 payload operation_id
  | "reason" => handle_reasoning_task env ag1 payload operation_id
  | _ => ({ ag1 with llm_operations := kvInsert operation_id "failed" ag1.llm_operations }, 0)

/-- AgentProcess::scrape_with_gloo (src/supervisor.rs): the simulated
WebAssembly-compatible scrape, keyed on substrings of the URL.  Always
succeeds. -/
def scrape_with_gloo (ag : AgentProcess) (url title task_id : String) (clock : Clock) :
    Except Error Json :=
  let canned : String × String × Json :=
    if strContains "news.ycombinator.com" url then
      ("Hacker News",
       "Hacker News is a social news website focusing on computer science and entrepreneurship. The site features user-submitted stories about technology, startups, and programming. Posts are ranked by user votes and comments, creating a community-driven platform for tech discussion.",
       .obj [("description", .str "A social news website focusing on computer science and entrepreneurship"),
             ("keywords", .str "hacker news, technology, programming, startups"),
             ("content_length", .num 304), ("link_count", .num 150),
             ("image_count", .num 5), ("paragraph_count", .num 30)])
    else if strContains "blog.rust-lang.org" url then
      ("Rust Blog",
       "The Rust Programming Language Blog provides updates on language development, new releases, and community announcements. Topics include performance improvements, new language features, tooling updates, and ecosystem developments in the Rust programming community.",
       .obj [("description", .str "Official blog of the Rust programming language"),
             ("keywords", .str "rust, programming, systems programming, memory safety"),
             ("content_length", .num 278), ("link_count", .num 45),
             ("image_count", .num 8), ("paragraph_count", .num 15)])
    else if strContains "webassembly.org" url then
      ("WebAssembly",
       "WebAssembly (WASM) is a binary instruction format for a stack-based virtual machine. It enables high-performance applications on web browsers and provides a compilation target for languages like C, C++, Rust, and others to run on the web with near-native performance.",
       .obj [("description", .str "WebAssembly official website and documentation"),
             ("keywords", .str "webassembly, wasm, performance, web, compilation"),
             ("content_length", .num 295), ("link_count", .num 60),
             ("image_count", .num 12), ("paragraph_count", .num 20)])
    else if strContains "lunatic.solutions" url then
      ("Lunatic",
       "Lunatic is an Erlang-inspired runtime for WebAssembly that provides fault-tolerant, actor-model concurrency. It enables building distributed systems with process isolation, message passing, and supervision trees, bringing Erlang"
       ++ sq ++ "s reliability to WebAssembly.",
       .obj [("description", .str "Lunatic WebAssembly runtime for fault-tolerant applications"),
             ("keywords", .str "lunatic, webassembly, erlang, actor model, fault tolerance"),
             ("content_length", .num 257), ("link_count", .num 25),
             ("image_count", .num 6), ("paragraph_count", .num 12)])
    else
      ("Content from " ++ title,
       "Real content would be scraped from " ++ url
       ++ ". This WebAssembly-compatible implementation demonstrates the scraping system architecture with structured data extraction, content processing, and metadata collection.",
       .obj [("description", .str ("Content from " ++ title)),
             ("keywords", .str "web scraping, content extraction, data processing"),
             ("content_length", .num 200), ("link_count", .num 10),
             ("image_count", .num 3), ("paragraph_count", .num 5)])
  let page_title := canned.1
  let content := canned.2.1
  let metadata := canned.2.2
  .ok (.obj [("task_id", .str task_id), ("url", .str url),
             ("title", .str page_title), ("requested_title", .str title),
             ("content", .str content), ("metadata", metadata),
             ("scraped_at", .str clock.rfc3339), ("scraper_agent", .str ag.id),
             ("status", .str "success"), ("scraper_type", .str "wasm_compatible")])

/-- AgentProcess::scrape_website_real (src/supervisor.rs): validate the URL,
then run the simulated scrape. -/
def scrape_website_real (ag : AgentProcess) (url title task_id : String) (clock : Clock) :
    Except Error Json :=
  if url.length = 0 ∨ (strStartsWith "http://" url = false ∧ strStartsWith "https://" url = false) then
    .error (.Custom ("Invalid URL: " ++ url))
  else
    scrape_with_gloo ag url title task_id clock

/-- AgentProcess::handle_scraping_task (src/supervisor.rs). -/
def handle_scraping_task (ag : AgentProcess) (m : Message) (clock : Clock) : AgentProcess :=
  match m.payload.get "target" with
  | some target =>
    let url := ((target.get "url").bind Json.asStr).getD ""
    let title := ((target.get "title").bind Json.asStr).getD "Unknown"
    let task_id := ((target.get "id").bind Json.asStr).getD "unknown"
    match scrape_website_real ag url title task_id clock with
    | .ok scraped_data =>
      { ag with state := kvInsert ("scraped_data_" ++ task_id) scraped_data ag.state }
    | .error e =>
      let error_data : Json :=
        .obj [("error", .str e.msg), ("url", .str url), ("title", .str title),
              ("timestamp", .str clock.rfc3339)]
      { ag with state := kvInsert ("scraping_error_" ++ task_id) error_data ag.state }
  | none => ag

/-- AgentProcess::handle_regular_message (src/supervisor.rs): dispatch on
the message_type discriminant, defaulting to the sender-qualified last
message key. -/
def handle_regular_message (ag : AgentProcess) (m : Message) (clock : Clock) : AgentProcess :=
  let message_type := ((m.payload.get "message_type").bind Json.asStr).getD "standard"
  match message_type with
  | "state_update" =>
    match (m.payload.get "updates").bind Json.asObj with
    | some updates =>
      { ag with state := updates.foldl (fun acc kv => kvInsert kv.1 kv.2 acc) ag.state }
    | none => ag
  | "coordination" =>
    { ag with state := kvInsert ("coordination_message_" ++ toString clock.millis) m.payload ag.state }
  | "data_transfer" =>
    match m.payload.get "data" with
    | some d =>
      let transfer_id := ((m.payload.get "transfer_id").bind Json.asStr).getD "unknown"
      { ag with state := kvInsert ("data_transfer_" ++ transfer_id) d ag.state }
    | none => ag
  | "scraping_task" => handle_scraping_task ag m clock
  | _ =>
    { ag with state := kvInsert ("last_message_from_" ++ m.from_) m.payload ag.state }

/-- AgentProcess::process_message_standard (src/supervisor.rs): an llm_task
message goes to the executor when LLM is enabled, and is otherwise stored
verbatim under a generated pending key; other messages go to
handle_regular_message.  The fresh UUID is threaded as an input; the
second result component counts provider-abstraction calls. -/
def process_message_standard (env : LlmEnv) (ag : AgentProcess) (m : Message)
    (fresh : String) (clock : Clock) : AgentProcess × Nat :=
  match (m.payload.get "llm_task").bind Json.asStr with
  | some _ =>
    if ag.config.llm_enabled = true then
      handle_llm_task env ag m.payload fresh
    else
      ({ ag with state := kvInsert ("pending_llm_task_" ++ fresh) m.payload ag.state }, 0)
  | none => (handle_regular_message ag m clock, 0)

/-- AgentProcess::process_message_immediately (src/supervisor.rs): for
critical/high priority messages — delegates to the standard path. -/
def process_message_immediately (env : LlmEnv) (ag : AgentProcess) (m : Message)
    (fresh : String) (clock : Clock) : AgentProcess × Nat :=
  process_message_standard env ag m fresh clock

/-- Embedding of `impl MessageHandler(AgentMessage) for AgentProcess`
(src/supervisor.rs): count the message, read the priority (defaulting to
normal), and dispatch — critical/high immediately, medium/normal/low and
anything else through the standard path. -/
def handleAgentMessage (env : LlmEnv) (ag : AgentProcess) (m : Message)
    (fresh : String) (clock : Clock) : AgentProcess × Nat :=
  let ag1 : AgentProcess := { ag with message_count := ag.message_count + 1 }
  let message_priority := ((m.payload.get "priority").bind Json.asStr).getD "normal"
  match message_priority with
  | "critical" => process_message_immediately env ag1 m fresh clock
  | "high" => process_message_immediately env ag1 m fresh clock
  | "medium" => process_message_standard env ag1 m fresh clock
  | "normal" => process_message_standard env ag1 m fresh clock
  | "low" => process_message_standard env ag1 m fresh clock
  | _ => process_message_standard env ag1 m fresh clock

/-- Embedding of `impl MessageHandler(StateAction) for AgentProcess`
(src/supervisor.rs): direct application to the process state map; Get and
List only log. -/
def handleProcessStateAction (ag : AgentProcess) : StateAction → AgentProcess
  | .store key v => { ag with state := kvInsert key v ag.state }
  | .get _ => ag
  | .delete key => { ag with state := kvErase key ag.state }
  | .clear => { ag with state := [] }
  | .list => ag

/-- Embedding of `impl RequestHandler(GetAgentState) for AgentProcess`
(src/supervisor.rs): the response is state.state.clone(), a snapshot of
the state map; the handler does not mutate. -/
def getAgentState (ag : AgentProcess) : List (String × Json) :=
  ag.state

/-!
Helper lemmas on the association-list map and on strings.
-/

theorem kvLookup_kvErase {α : Type} (key k2 : String) (m : List (String × α)) :
    kvLookup (kvErase key m) k2 = if key = k2 then none else kvLookup m k2 := by
  induction m with
  | nil => simp [kvErase, kvLookup]
  | cons hd tl ih =>
    obtain ⟨a, b⟩ := hd
    by_cases hak : a = key
    · subst hak
      by_cases hk2 : a = k2
      · subst hk2
        simp [kvErase, ih]
      · simp [kvErase, kvLookup, hk2, ih]
    · by_cases hk2 : a = k2
      · subst hk2
        have hne : ¬ key = a := fun h => hak h.symm
        simp [kvErase, kvLookup, hak, hne, ih]
      · simp [kvErase, kvLookup, hak, hk2, ih]

theorem kvLookup_kvInsert {α : Type} (key k2 : String) (v : α) (m : List (String × α)) :
    kvLookup (kvInsert key v m) k2 = if key = k2 then some v else kvLookup m k2 := by
  by_cases h : key = k2
  · subst h
    simp [kvInsert, kvLookup]
  · simp [kvInsert, kvLookup, h, kvLookup_kvErase]

theorem kvLookup_kvInsert_self {α : Type} (key : String) (v : α) (m : List (String × α)) :
    kvLookup (kvInsert key v m) key = some v := by
  simp [kvLookup_kvInsert]

theorem kvErase_of_lookup_none {α : Type} (key : String) (m : List (String × α))
    (h : kvLookup m key = none) : kvErase key m = m := by
  induction m with
  | nil => simp [kvErase]
  | cons hd tl ih =>
    obtain ⟨a, b⟩ := hd
    by_cases hak : a = key
    · subst hak
      simp [kvLookup] at h
    · simp [kvLookup, hak] at h
      simp [kvErase, hak, ih h]

theorem kvErase_kvErase_self {α : Type} (key : String) (m : List (String × α)) :
    kvErase key (kvErase key m) = kvErase key m := by
  apply kvErase_of_lookup_none
  simp [kvLookup_kvErase]

theorem kvInsert_kvInsert_same {α : Type} (key : String) (v1 v2 : α) (m : List (String × α)) :
    kvInsert key v2 (kvInsert key v1 m) = kvInsert key v2 m := by
  simp [kvInsert, kvErase, kvErase_kvErase_self]

theorem kvInsert_length_of_fresh {α : Type} (key : String) (v : α) (m : List (String × α))
    (h : kvLookup m key = none) : (kvInsert key v m).length = m.length + 1 := by
  simp [kvInsert, kvErase_of_lookup_none key m h]

theorem kvLookup_mem_keys {α : Type} (key : String) (v : α) (m : List (String × α))
    (h : kvLookup m key = some v) : key ∈ kvKeys m := by
  induction m with
  | nil => simp [kvLookup] at h
  | cons hd tl ih =>
    obtain ⟨a, b⟩ := hd
    by_cases hak : a = key
    · subst hak
      simp [kvKeys]
    · simp [kvLookup, hak] at h
      simp [kvKeys] at ih ⊢
      exact Or.inr (ih h)

theorem strMk_append (a b : List Char) : String.mk a ++ String.mk b = String.mk (a ++ b) :=
  rfl

theorem strData_append (a b : String) : (a ++ b).data = a.data ++ b.data := by
  cases a
  cases b
  rfl

theorem strAppend_cancel_left (a b c : String) (h : a ++ b = a ++ c) : b = c := by
  have hd : a.data ++ b.data = a.data ++ c.data := by
    rw [← strData_append, ← strData_append, h]
  exact String.ext (List.append_cancel_left hd)

theorem charsStartWith_append (p t : List Char) : charsStartWith p (p ++ t) = true := by
  induction p with
  | nil => simp [charsStartWith]
  | cons c cs ih => simp [charsStartWith, ih]

theorem strStartsWith_append (p t : String) : strStartsWith p (p ++ t) = true := by
  unfold strStartsWith
  rw [strData_append]
  exact charsStartWith_append _ _

theorem charsStartWith_of_append (pat xs ys : List Char)
    (h : charsStartWith pat xs = true) : charsStartWith pat (xs ++ ys) = true := by
  induction pat generalizing xs with
  | nil => simp [charsStartWith]
  | cons p ps ih =>
    cases xs with
    | nil => simp [charsStartWith] at h
    | cons c cs =>
      simp only [charsStartWith, Bool.and_eq_true] at h ⊢
      exact ⟨h.1, ih cs h.2⟩

theorem charsContain_nil_pat (ys : List Char) : charsContain [] ys = true := by
  induction ys with
  | nil => simp [charsContain, charsStartWith]
  | cons c cs ih => simp [charsContain, charsStartWith, ih]

theorem charsContain_append_left (pat xs ys : List Char)
    (h : charsContain pat xs = true) : charsContain pat (xs ++ ys) = true := by
  induction xs with
  | nil =>
    cases pat with
    | nil => simpa using charsContain_nil_pat ys
    | cons p ps => simp [charsContain, charsStartWith] at h
  | cons c cs ih =>
    simp only [charsContain, Bool.or_eq_true] at h
    cases h with
    | inl h =>
      have := charsStartWith_of_append pat (c :: cs) ys h
      simp only [List.cons_append, charsContain, Bool.or_eq_true] at this ⊢
      exact Or.inl this
    | inr h =>
      simp only [List.cons_append, charsContain, Bool.or_eq_true]
      exact Or.inr (ih h)

theorem strContains_append_left (pat a b : String)
    (h : strContains pat a = true) : strContains pat (a ++ b) = true := by
  unfold strContains at h ⊢
  rw [strData_append]
  exact charsContain_append_left _ _ _ h

theorem charsDropLead_eq_some_iff (p : List Char) :
    ∀ s t : List Char, charsDropLead p s = some t ↔ s = p ++ t := by
  induction p with
  | nil =>
    intro s t
    simp [charsDropLead, eq_comm]
  | cons c cs ih =>
    intro s t
    cases s with
    | nil => simp [charsDropLead]
    | cons d ds =>
      by_cases h : c = d
      · subst h
        simp [charsDropLead, ih]
      · simp only [charsDropLead, h, if_false, List.cons_append, List.cons.injEq]
        constructor
        · intro hc
          cases hc
        · intro hc
          exact absurd hc.1.symm h

theorem strMk_data (s : String) : String.mk s.data = s :=
  rfl

theorem strDropLead_eq_some_iff (p s t : String) :
    strDropLead p s = some t ↔ s = p ++ t := by
  unfold strDropLead
  cases hcd : charsDropLead p.data s.data with
  | none =>
    simp only [Option.map_none']
    constructor
    · intro h
      cases h
    · intro h
      subst h
      have hsome : charsDropLead p.data (p ++ t).data = some t.data := by
        rw [strData_append]
        exact (charsDropLead_eq_some_iff p.data (p.data ++ t.data) t.data).mpr rfl
      rw [hcd] at hsome
      cases hsome
  | some cs =>
    simp only [Option.map_some', Option.some.injEq]
    have hs : s.data = p.data ++ cs := (charsDropLead_eq_some_iff p.data s.data cs).mp hcd
    constructor
    · intro h
      apply String.ext
      rw [strData_append, hs, ← h]
    · intro h
      have hdata : s.data = (p ++ t).data := by rw [h]
      rw [strData_append, hs] at hdata
      have hcst : cs = t.data := List.append_cancel_left hdata
      rw [hcst]

/-!
Lemmas on the retry loop.
-/

theorem retryAux_all_retryable {α : Type} (op : Nat → Except Error α) (N : Nat) (e : Nat → Error)
    (hall : ∀ i, i ≤ N → op i = .error (e i) ∧ (e i).is_retryable = true) :
    ∀ n a, N - a = n → a ≤ N → retryAux op N a = (.error (e N), N + 1) := by
  intro n
  induction n with
  | zero =>
    intro a hna ha
    have haN : a = N := by omega
    subst haN
    rw [retryAux, (hall a le_rfl).1]
    simp only []
    rw [if_neg]
    intro hcontra
    exact absurd hcontra.1 (lt_irrefl a)
  | succ n ih =>
    intro a hna ha
    have haN : a < N := by omega
    rw [retryAux, (hall a (le_of_lt haN)).1]
    simp only []
    rw [if_pos ⟨haN, (hall a (le_of_lt haN)).2⟩]
    exact ih (a + 1) (by omega) (by omega)

theorem retryAux_stops_nonretryable {α : Type} (op : Nat → Except Error α) (N j : Nat)
    (e : Nat → Error) (ej : Error)
    (hj : j ≤ N)
    (hpre : ∀ i, i < j → op i = .error (e i) ∧ (e i).is_retryable = true)
    (hop : op j = .error ej) (hnr : ej.is_retryable = false) :
    ∀ n a, j - a = n → a ≤ j → retryAux op N a = (.error ej, j + 1) := by
  intro n
  induction n with
  | zero =>
    intro a hna ha
    have haj : a = j := by omega
    subst haj
    rw [retryAux, hop]
    simp only []
    rw [if_neg]
    intro hcontra
    rw [hnr] at hcontra
    exact Bool.false_ne_true hcontra.2
  | succ n ih =>
    intro a hna ha
    have haj : a < j := by omega
    rw [retryAux, (hpre a haj).1]
    simp only []
    rw [if_pos ⟨by omega, (hpre a haj).2⟩]
    exact ih (a + 1) (by omega) (by omega)

theorem retryAux_attempts_le {α : Type} (op : Nat → Except Error α) (N : Nat) :
    ∀ n a, N - a = n → a ≤ N → (retryAux op N a).2 ≤ N + 1 := by
  intro n
  induction n with
  | zero =>
    intro a hna ha
    rw [retryAux]
    cases hop : op a with
    | ok r => simpa using by omega
    | error e =>
      simp only []
      rw [if_neg]
      · simpa using by omega
      · intro hcontra
        omega
  | succ n ih =>
    intro a hna ha
    rw [retryAux]
    cases hop : op a with
    | ok r => simpa using by omega
    | error e =>
      simp only []
      by_cases hc : a < N ∧ e.is_retryable = true
      · rw [if_pos hc]
        exact ih (a + 1) (by omega) (by omega)
      · rw [if_neg hc]
        simpa using by omega

/-- C4: the retry wrapper makes exactly maxRetries + 1 attempts when every
attempt fails with a retryable error, returning the last error so that
fallback synthesis can run; a non-retryable failure stops the loop at once
(so a first-attempt non-retryable failure means exactly one attempt); with
the default maxRetries = 3 used by safe_llm_operation, at most 4 attempts
are ever made; and the retryable set is exactly LLMTimeout, LLMRateLimit
and the NATS transport error. -/
theorem claim4_retry_attempts :
    (∀ (α : Type) (op : Nat → Except Error α) (N : Nat) (e : Nat → Error),
      (∀ i, i ≤ N → op i = .error (e i) ∧ (e i).is_retryable = true) →
      retry_llm_operation op N = (.error (e N), N + 1))
    ∧ (∀ (α : Type) (op : Nat → Except Error α) (N j : Nat) (e : Nat → Error) (ej : Error),
      j ≤ N → (∀ i, i < j → op i = .error (e i) ∧ (e i).is_retryable = true) →
      op j = .error ej → ej.is_retryable = false →
      retry_llm_operation op N = (.error ej, j + 1))
    ∧ (∀ (α : Type) (op : Nat → Except Error α), (retry_llm_operation op 3).2 ≤ 4)
    ∧ (∀ er : Error, er.is_retryable = true ↔
        (∃ t, er = .LLMTimeout t) ∨ (∃ s, er = .LLMRateLimit s) ∨ (∃ s, er = .Nats s)) := by
  refine ⟨?_, ?_, ?_, ?_⟩
  · intro α op N e hall
    exact retryAux_all_retryable op N e hall (N - 0) 0 rfl (Nat.zero_le N)
  · intro α op N j e ej hj hpre hop hnr
    exact retryAux_stops_nonretryable op N j e ej hj hpre hop hnr (j - 0) 0 rfl (Nat.zero_le j)
  · intro α op
    exact retryAux_attempts_le op 3 (3 - 0) 0 rfl (Nat.zero_le 3)
  · intro er
    cases er <;> simp [Error.is_retryable]

/-- Witness for C4: a rate-limit error on every attempt with the default
maxRetries = 3 yields 4 attempts; a serialization error on the first
attempt yields exactly 1 attempt. -/
theorem claim4_witness :
    retry_llm_operation (fun _ => (.error (Error.LLMRateLimit "limit") : Except Error String)) 3
      = (.error (Error.LLMRateLimit "limit"), 4)
    ∧ retry_llm_operation (fun _ => (.error (Error.Serialization "bad") : Except Error String)) 3
      = (.error (Error.Serialization "bad"), 1) := by
  constructor
  · exact claim4_retry_attempts.1 String _ 3 (fun _ => Error.LLMRateLimit "limit")
      (fun i _ => ⟨rfl, rfl⟩)
  · exact claim4_retry_attempts.2.1 String _ 3 0 (fun _ => Error.Serialization "bad")
      (Error.Serialization "bad") (by omega) (fun i h => absurd h (by omega)) rfl rfl

/-- C5: last writer wins — after store(k, v1) then store(k, v2), a get(k)
observes v2, both in the store contract and in the ephemeral view. -/
theorem claim5_last_writer_wins (st : AgentState MemMap) (k : String) (v1 v2 : Json) :
    ∃ st1 st2,
      handle_state_action inMemoryBackend st (.store k v1) = .ok (st1, none)
      ∧ handle_state_action inMemoryBackend st1 (.store k v2) = .ok (st2, none)
      ∧ handle_state_action inMemoryBackend st2 (.get k) = .ok (st2, some v2)
      ∧ kvLookup st2.ephemeral_state k = some v2 := by
  refine ⟨_, _, rfl, rfl, ?_, ?_⟩
  · simp [handle_state_action, kvLookup_kvInsert_self]
  · simp [kvLookup_kvInsert_self]

/-- A persistent backend whose read operation fails, as the fallible
MemoryBackend trait (and the spec external-interface contract) permits;
used to exercise the error path of the Get branch. -/
def errorBackend : Backend Unit where
  store s _ _ := .ok s
  retrieve _ _ := .error (.Io "simulated backend read failure")
  delete _ _ := .ok (false, ())
  list_keys _ _ := .ok []
  clear s := .ok s

/-- Counterexample for C3: with an ephemeral miss, a failing persistent
read is not treated as a cache miss — handle_state_action propagates the
backend error, so get can return an error. -/
theorem claim3_counterexample :
    handle_state_action errorBackend ⟨"agent_a", [], (), false⟩ (.get "missing")
      = .error (.Io "simulated backend read failure") := by
  rfl

/-- C3 (amended): get returns the ephemeral value when present without
consulting the backend (the conclusion holds for every backend, including
a failing one); on an ephemeral miss a persistent hit populates the
ephemeral cache before returning the value; a persistent miss returns
not-found without error; but a failure of the persistent-path read is
propagated as an error, not treated as a cache miss. -/
theorem claim3_get_contract (σ : Type) (B : Backend σ) (st : AgentState σ) (k : String) :
    (∀ v, kvLookup st.ephemeral_state k = some v →
      handle_state_action B st (.get k) = .ok (st, some v))
    ∧ (∀ v s2, kvLookup st.ephemeral_state k = none →
        B.retrieve st.backendState (st.id ++ ":" ++ k) = .ok (some v, s2) →
        handle_state_action B st (.get k) =
          .ok ({ st with ephemeral_state := kvInsert k v st.ephemeral_state,
                         backendState := s2 }, some v)
        ∧ kvLookup (kvInsert k v st.ephemeral_state) k = some v)
    ∧ (∀ s2, kvLookup st.ephemeral_state k = none →
        B.retrieve st.backendState (st.id ++ ":" ++ k) = .ok (none, s2) →
        handle_state_action B st (.get k) = .ok ({ st with backendState := s2 }, none))
    ∧ (∀ e, kvLookup st.ephemeral_state k = none →
        B.retrieve st.backendState (st.id ++ ":" ++ k) = .error e →
        handle_state_action B st (.get k) = .error e) := by
  refine ⟨?_, ?_, ?_, ?_⟩
  · intro v h
    simp [handle_state_action, h]
  · intro v s2 h hr
    refine ⟨?_, kvLookup_kvInsert_self k v _⟩
    simp [handle_state_action, h, hr]
  · intro s2 h hr
    simp [handle_state_action, h, hr]
  · intro e h hr
    simp [handle_state_action, h, hr]

/-- Witness for C3: the four branches of the get contract at concrete
stores — an ephemeral hit served against the failing backend, a
persistent hit that populates the cache, a plain miss, and a propagated
read failure. -/
theorem claim3_witness :
    handle_state_action errorBackend ⟨"a", [("k", Json.str "v")], (), false⟩ (.get "k")
      = .ok (⟨"a", [("k", Json.str "v")], (), false⟩, some (Json.str "v"))
    ∧ handle_state_action inMemoryBackend ⟨"a", [], [("a:k", Json.str "pv")], false⟩ (.get "k")
      = .ok (⟨"a", [("k", Json.str "pv")], [("a:k", Json.str "pv")], false⟩, some (Json.str "pv"))
    ∧ handle_state_action inMemoryBackend ⟨"a", [], [], false⟩ (.get "k")
      = .ok (⟨"a", [], [], false⟩, none)
    ∧ handle_state_action errorBackend ⟨"a", [], (), false⟩ (.get "k")
      = .error (.Io "simulated backend read failure") := by
  refine ⟨?_, ?_, ?_, ?_⟩
  · exact (claim3_get_contract Unit errorBackend ⟨"a", [("k", Json.str "v")], (), false⟩ "k").1
      (Json.str "v") (by decide)
  · exact ((claim3_get_contract MemMap inMemoryBackend ⟨"a", [], [("a:k", Json.str "pv")], false⟩ "k").2.1
      (Json.str "pv") [("a:k", Json.str "pv")] (by decide) (by rfl)).1
  · exact (claim3_get_contract MemMap inMemoryBackend ⟨"a", [], [], false⟩ "k").2.2.1
      [] (by decide) (by rfl)
  · exact (claim3_get_contract Unit errorBackend ⟨"a", [], (), false⟩ "k").2.2.2
      (.Io "simulated backend read failure") (by decide) (by rfl)

/-!
Lemmas on saving and reloading persistent state (claim C6).
-/

theorem saveLoop_preserves (idStr : String) :
    ∀ (entries : List (String × Json)) (bs : MemMap) (key : String),
      (∀ ki ∈ kvKeys entries, idStr ++ ":" ++ ki ≠ key) →
      ∃ bs2, saveLoop inMemoryBackend idStr entries bs = .ok bs2
        ∧ kvLookup bs2 key = kvLookup bs key := by
  intro entries
  induction entries with
  | nil =>
    intro bs key _
    exact ⟨bs, rfl, rfl⟩
  | cons hd tl ih =>
    intro bs key h
    obtain ⟨a, b⟩ := hd
    have hne : idStr ++ ":" ++ a ≠ key := h a (by simp [kvKeys])
    obtain ⟨bs2, hrun, hlook⟩ := ih (kvInsert (idStr ++ ":" ++ a) b bs) key
      (fun ki hki => h ki (by simp [kvKeys] at hki ⊢; exact Or.inr hki))
    refine ⟨bs2, ?_, ?_⟩
    · simpa [saveLoop, inMemoryBackend] using hrun
    · rw [hlook, kvLookup_kvInsert, if_neg hne]

theorem saveLoop_restore (idStr : String) :
    ∀ (entries : List (String × Json)) (bs : MemMap) (k : String) (v : Json),
      (kvKeys entries).Nodup → kvLookup entries k = some v →
      ∃ bs2, saveLoop inMemoryBackend idStr entries bs = .ok bs2
        ∧ kvLookup bs2 (idStr ++ ":" ++ k) = some v := by
  intro entries
  induction entries with
  | nil =>
    intro bs k v _ hk
    simp [kvLookup] at hk
  | cons hd tl ih =>
    intro bs k v hnd hk
    obtain ⟨a, b⟩ := hd
    simp only [kvKeys, List.map_cons, List.nodup_cons] at hnd
    by_cases hak : a = k
    · subst hak
      have hbv : b = v := by simpa [kvLookup] using hk
      obtain ⟨bs2, hrun, hlook⟩ := saveLoop_preserves idStr tl
        (kvInsert (idStr ++ ":" ++ a) b bs) (idStr ++ ":" ++ a)
        (fun ki hki heq => hnd.1 (by
          have hkia : ki = a := strAppend_cancel_left (idStr ++ ":") ki a heq
          simpa [kvKeys, hkia] using hki))
      refine ⟨bs2, ?_, ?_⟩
      · simpa [saveLoop, inMemoryBackend] using hrun
      · rw [hlook, kvLookup_kvInsert_self, hbv]
    · simp only [kvLookup, if_neg hak] at hk
      obtain ⟨bs2, hrun, hlook⟩ := ih (kvInsert (idStr ++ ":" ++ a) b bs) k v hnd.2 hk
      exact ⟨bs2, by simpa [saveLoop, inMemoryBackend] using hrun, hlook⟩

theorem loadLoop_restore (pre : String) :
    ∀ (keys : List String) (st : AgentState MemMap) (k : String) (v : Json),
      kvLookup st.backendState (pre ++ k) = some v →
      ((pre ++ k) ∈ keys ∨ kvLookup st.ephemeral_state k = some v) →
      ∃ st2, loadLoop inMemoryBackend pre st keys = .ok st2
        ∧ kvLookup st2.ephemeral_state k = some v := by
  intro keys
  induction keys with
  | nil =>
    intro st k v _ hmem
    rcases hmem with h | h
    · simp at h
    · exact ⟨st, rfl, h⟩
  | cons key rest ih =>
    intro st k v hbs hmem
    rcases hsp : strDropLead pre key with _ | lk
    · have hkey : key ≠ pre ++ k := by
        intro h
        subst h
        rw [(strDropLead_eq_some_iff pre (pre ++ k) k).mpr rfl] at hsp
        cases hsp
      have hmem2 : (pre ++ k) ∈ rest ∨ kvLookup st.ephemeral_state k = some v := by
        rcases hmem with h | h
        · rcases List.mem_cons.mp h with h1 | h1
          · exact absurd h1.symm hkey
          · exact Or.inl h1
        · exact Or.inr h
      obtain ⟨st2, hrun, hl⟩ := ih st k v hbs hmem2
      exact ⟨st2, by simpa [loadLoop, hsp] using hrun, hl⟩
    · have hkeyeq : key = pre ++ lk := (strDropLead_eq_some_iff pre key lk).mp hsp
      rcases hret : kvLookup st.backendState key with _ | w
      · have hkey : key ≠ pre ++ k := by
          intro h
          rw [h, hbs] at hret
          cases hret
        have hmem2 : (pre ++ k) ∈ rest ∨ kvLookup st.ephemeral_state k = some v := by
          rcases hmem with h | h
          · rcases List.mem_cons.mp h with h1 | h1
            · exact absurd h1.symm hkey
            · exact Or.inl h1
          · exact Or.inr h
        obtain ⟨st2, hrun, hl⟩ := ih st k v hbs hmem2
        exact ⟨st2, by simpa [loadLoop, hsp, inMemoryBackend, hret] using hrun, hl⟩
      · by_cases hlk : lk = k
        · have hret2 := hret
          rw [hkeyeq, hlk] at hret2
          rw [hret2] at hbs
          have hwv : w = v := Option.some.inj hbs
          obtain ⟨st2, hrun, hl⟩ := ih
            { st with ephemeral_state := kvInsert lk w st.ephemeral_state } k v
            (by rw [hret2, hwv])
            (Or.inr (by rw [hlk, hwv]; exact kvLookup_kvInsert_self k v st.ephemeral_state))
          exact ⟨st2, by simpa [loadLoop, hsp, inMemoryBackend, hret] using hrun, hl⟩
        · have hkey : key ≠ pre ++ k := by
            rw [hkeyeq]
            intro h
            exact hlk (strAppend_cancel_left pre lk k h)
          have hmem2 : (pre ++ k) ∈ rest
              ∨ kvLookup (kvInsert lk w st.ephemeral_state) k = some v := by
            rcases hmem with h | h
            · rcases List.mem_cons.mp h with h1 | h1
              · exact absurd h1.symm hkey
              · exact Or.inl h1
            · refine Or.inr ?_
              rw [kvLookup_kvInsert, if_neg hlk]
              exact h
          obtain ⟨st2, hrun, hl⟩ := ih
            { st with ephemeral_state := kvInsert lk w st.ephemeral_state } k v hbs hmem2
          exact ⟨st2, by simpa [loadLoop, hsp, inMemoryBackend, hret] using hrun, hl⟩

/-- Counterexample for C6: as cited, clear() is the StateAction Clear
branch, which wipes the persistent backend as well as the ephemeral view;
after saveAll(); clear(); loadAll() on a store holding ("k","v"), nothing
is restored — loadAll finds an empty backend, so the pair that existed
before the clear is not restored. -/
theorem claim6_counterexample :
    save_persistent_state inMemoryBackend
        (⟨"a", [("k", Json.str "v")], [], false⟩ : AgentState MemMap)
      = .ok ⟨"a", [("k", Json.str "v")], [("a:k", Json.str "v")], false⟩
    ∧ handle_state_action inMemoryBackend
        (⟨"a", [("k", Json.str "v")], [("a:k", Json.str "v")], false⟩ : AgentState MemMap) .clear
      = .ok (⟨"a", [], [], false⟩, none)
    ∧ load_persistent_state inMemoryBackend (⟨"a", [], [], false⟩ : AgentState MemMap)
      = .ok ⟨"a", [], [], false⟩
    ∧ kvLookup ([] : List (String × Json)) "k" = none
    ∧ kvLookup [("k", Json.str "v")] "k" = some (Json.str "v") := by
  refine ⟨?_, ?_, ?_, ?_, ?_⟩ <;> decide

/-- C6 (amended): saveAll() followed by wiping the ephemeral view only
(as the repository test does — the StateAction Clear also wipes the
persistent backend, after which nothing can be restored) followed by
loadAll() restores every key/value pair that existed before. -/
theorem claim6_roundtrip_amended (st : AgentState MemMap) (k : String) (v : Json)
    (hnd : (kvKeys st.ephemeral_state).Nodup)
    (hk : kvLookup st.ephemeral_state k = some v) :
    ∃ st1 st3, save_persistent_state inMemoryBackend st = .ok st1
      ∧ load_persistent_state inMemoryBackend { st1 with ephemeral_state := [] } = .ok st3
      ∧ kvLookup st3.ephemeral_state k = some v := by
  obtain ⟨bs2, hrun, hlook⟩ :=
    saveLoop_restore st.id st.ephemeral_state st.backendState k v hnd hk
  refine ⟨{ st with backendState := bs2 }, ?_⟩
  obtain ⟨st3, hload, hl⟩ := loadLoop_restore (st.id ++ ":")
    ((kvKeys bs2).filter (fun key => strStartsWith (st.id ++ ":") key))
    { st with ephemeral_state := [], backendState := bs2 } k v hlook
    (Or.inl (List.mem_filter.mpr ⟨kvLookup_mem_keys _ _ _ hlook, strStartsWith_append _ _⟩))
  refine ⟨st3, ?_, ?_, hl⟩
  · simp [save_persistent_state, hrun]
  · simpa [load_persistent_state, inMemoryBackend] using hload

/-- Witness for C6 (amended): a concrete one-entry store survives the
save / ephemeral-wipe / load round trip. -/
theorem claim6_witness :
    ∃ st1 st3,
      save_persistent_state inMemoryBackend
          (⟨"a", [("k", Json.str "v")], [], false⟩ : AgentState MemMap) = .ok st1
      ∧ load_persistent_state inMemoryBackend { st1 with ephemeral_state := [] } = .ok st3
      ∧ kvLookup st3.ephemeral_state "k" = some (Json.str "v") :=
  claim6_roundtrip_amended ⟨"a", [("k", Json.str "v")], [], false⟩ "k" (Json.str "v")
    (by decide) (by decide)

/-- Counterexample for C7: handling StateAction Get on the agent-state
store is not mutation-free — on an ephemeral miss with a persistent hit,
the Get branch inserts the value into the ephemeral view (the cache
population the store contract itself prescribes), so a key changes from
absent to present. -/
theorem claim7_counterexample :
    handle_state_action inMemoryBackend
        (⟨"a", [], [("a:k", Json.str "pv")], false⟩ : AgentState MemMap) (.get "k")
      = .ok (⟨"a", [("k", Json.str "pv")], [("a:k", Json.str "pv")], false⟩, some (Json.str "pv"))
    ∧ kvLookup ([] : List (String × Json)) "k" = none
    ∧ kvLookup [("k", Json.str "pv")] "k" = some (Json.str "pv") := by
  refine ⟨?_, ?_, ?_⟩ <;> decide

/-- C7 (amended): on the AgentProcess (supervisor) store, StateAction Get
and List and the GetAgentState request mutate nothing and GetAgentState
returns a snapshot of the state map; on the two-tier AgentState store,
List mutates nothing, and Get leaves the persistent backend untouched and
changes no ephemeral key other than possibly caching the requested one. -/
theorem claim7_read_ops (ag : AgentProcess) (k : String) (st : AgentState MemMap) :
    handleProcessStateAction ag (.get k) = ag
    ∧ handleProcessStateAction ag .list = ag
    ∧ getAgentState ag = ag.state
    ∧ handle_state_action inMemoryBackend st .list = .ok (st, none)
    ∧ (∀ res obs, handle_state_action inMemoryBackend st (.get k) = .ok (res, obs) →
        res.backendState = st.backendState
        ∧ ∀ k2, k2 ≠ k → kvLookup res.ephemeral_state k2 = kvLookup st.ephemeral_state k2) := by
  refine ⟨rfl, rfl, rfl, rfl, ?_⟩
  intro res obs h
  rcases he : kvLookup st.ephemeral_state k with _ | v
  · rcases hb : kvLookup st.backendState (st.id ++ ":" ++ k) with _ | w
    · simp only [handle_state_action, he, inMemoryBackend, hb, Except.ok.injEq,
        Prod.mk.injEq] at h
      obtain ⟨h1, -⟩ := h
      rw [← h1]
      exact ⟨rfl, fun k2 _ => rfl⟩
    · simp only [handle_state_action, he, inMemoryBackend, hb, Except.ok.injEq,
        Prod.mk.injEq] at h
      obtain ⟨h1, -⟩ := h
      rw [← h1]
      refine ⟨rfl, fun k2 hk2 => ?_⟩
      rw [kvLookup_kvInsert, if_neg (fun hh => hk2 hh.symm)]
  · simp only [handle_state_action, he, Except.ok.injEq, Prod.mk.injEq] at h
    obtain ⟨h1, -⟩ := h
    rw [← h1]
    exact ⟨rfl, fun k2 _ => rfl⟩

/-- Witness for C7 (amended): concrete reads — a Get that cached the
requested key left the backend and the other keys untouched, and List on
the process store is the identity. -/
theorem claim7_witness :
    ((⟨"a", [("k", Json.str "pv")], [("a:k", Json.str "pv")], false⟩ : AgentState MemMap)).backendState
      = ((⟨"a", [], [("a:k", Json.str "pv")], false⟩ : AgentState MemMap)).backendState
    ∧ kvLookup [("k", Json.str "pv")] "other" = kvLookup ([] : List (String × Json)) "other"
    ∧ handleProcessStateAction ⟨"x", [], 0, ⟨"x", .inMemory, false, false, .generic⟩, []⟩ .list
      = ⟨"x", [], 0, ⟨"x", .inMemory, false, false, .generic⟩, []⟩ := by
  have h := claim7_read_ops ⟨"x", [], 0, ⟨"x", .inMemory, false, false, .generic⟩, []⟩ "k"
      ⟨"a", [], [("a:k", Json.str "pv")], false⟩
  obtain ⟨hbe, hkeys⟩ := h.2.2.2.2 ⟨"a", [("k", Json.str "pv")], [("a:k", Json.str "pv")], false⟩
      (some (Json.str "pv")) (by decide)
  exact ⟨hbe, hkeys "other" (by decide), h.2.1⟩

/-- Counterexample for C2: a message whose to field names another agent IS
applied to the local state store when its payload deserializes to a
StateAction — the StateAction check precedes the destination check (C10),
so handling it adds the key "k" locally even with a transport configured. -/
theorem claim2_counterexample :
    (⟨"m1", "alice", "other",
        Json.obj [("Store", Json.obj [("key", Json.str "k"), ("value", Json.str "v")])],
        0⟩ : Message).to_
      ≠ (⟨"self", [], [], true⟩ : AgentState MemMap).id
    ∧ handle_message inMemoryBackend (⟨"self", [], [], true⟩ : AgentState MemMap)
        ⟨"m1", "alice", "other",
          Json.obj [("Store", Json.obj [("key", Json.str "k"), ("value", Json.str "v")])], 0⟩
      = .ok (⟨"self", [("k", Json.str "v")], [("self:k", Json.str "v")], true⟩, [])
    ∧ kvLookup ([] : List (String × Json)) "k" = none
    ∧ kvLookup [("k", Json.str "v")] "k" = some (Json.str "v") := by
  refine ⟨?_, ?_, ?_, ?_⟩ <;> decide

/-- C2 (amended): for a message whose payload does not deserialize to a
StateAction, when a transport is configured and the to field differs from
the receiving agent id, the raw message is forwarded to subject
agent.\x7bto\x7d and no key of the local state store is added, removed or
changed — the handler returns the state unchanged. -/
theorem claim2_forward_only (σ : Type) (B : Backend σ) (st : AgentState σ) (m : Message)
    (hn : st.nats = true) (ht : m.to_ ≠ st.id) (hp : parseStateAction m.payload = none) :
    handle_message B st m = .ok (st, [("agent." ++ m.to_, m)]) := by
  unfold handle_message
  rw [hp]
  rw [if_pos ⟨hn, ht⟩]

/-- Witness for C2 (amended): a state_update message for another agent is
forwarded untouched and the local store is unchanged. -/
theorem claim2_witness :
    handle_message inMemoryBackend (⟨"self", [], [], true⟩ : AgentState MemMap)
        ⟨"m2", "alice", "other",
          Json.obj [("message_type", Json.str "state_update"),
                    ("updates", Json.obj [("x", Json.num 1)])], 0⟩
      = .ok (⟨"self", [], [], true⟩,
          [("agent." ++ "other",
            ⟨"m2", "alice", "other",
              Json.obj [("message_type", Json.str "state_update"),
                        ("updates", Json.obj [("x", Json.num 1)])], 0⟩)]) :=
  claim2_forward_only MemMap inMemoryBackend _ _ rfl (by decide) (by decide)

/-- C10: in AgentState::handle_message the StateAction check precedes the
destination check — a payload that deserializes to a StateAction is
applied to the local store and handling stops there (nothing is
published), even when the to field names a different agent and a NATS
transport is configured. -/
theorem claim10_state_action_precedence (σ : Type) (B : Backend σ) (st : AgentState σ)
    (m : Message) (a : StateAction) (st2 : AgentState σ) (obs : Option Json)
    (_hn : st.nats = true) (_ht : m.to_ ≠ st.id)
    (hp : parseStateAction m.payload = some a)
    (hs : handle_state_action B st a = .ok (st2, obs)) :
    handle_message B st m = .ok (st2, []) := by
  simp only [handle_message, hp, hs]

/-- Witness for C10: a Store action addressed to a different agent is
applied locally and not forwarded. -/
theorem claim10_witness :
    handle_message inMemoryBackend (⟨"self2", [], [], true⟩ : AgentState MemMap)
        ⟨"m3", "alice", "elsewhere",
          Json.obj [("Store", Json.obj [("key", Json.str "kk"), ("value", Json.num 7)])], 0⟩
      = .ok (⟨"self2", [("kk", Json.num 7)], [("self2:kk", Json.num 7)], true⟩, []) :=
  claim10_state_action_precedence MemMap inMemoryBackend _ _ (.store "kk" (Json.num 7)) _ none
    rfl (by decide) (by decide) (by rfl)

/-- Shared dispatch-collapse lemma: the priority match of the
AgentMessage handler sends every priority value — critical, high, medium,
normal, low, unrecognized or absent — through the same standard
processing of the unchanged message. -/
theorem handleAgentMessage_eq_standard (env : LlmEnv) (ag : AgentProcess) (m : Message)
    (fresh : String) (clock : Clock) :
    handleAgentMessage env ag m fresh clock =
      process_message_standard env { ag with message_count := ag.message_count + 1 }
        m fresh clock := by
  simp only [handleAgentMessage]
  split <;> rfl

/-- Counterexample for C9: the resulting agent state is NOT identical
whatever the priority value — the payload (which embeds the priority
field) is stored verbatim under the sender-qualified key, so two messages
identical except for priority leave different states. -/
theorem claim9_counterexample :
    kvLookup (handleAgentMessage ⟨none, none, none⟩
        ⟨"x", [], 0, ⟨"x", .inMemory, false, false, .generic⟩, []⟩
        ⟨"m1", "alice", "x", Json.obj [("priority", Json.str "high"), ("k", Json.num 1)], 0⟩
        "f" ⟨0, "t"⟩).1.state "last_message_from_alice"
      = some (Json.obj [("priority", Json.str "high"), ("k", Json.num 1)])
    ∧ kvLookup (handleAgentMessage ⟨none, none, none⟩
        ⟨"x", [], 0, ⟨"x", .inMemory, false, false, .generic⟩, []⟩
        ⟨"m1", "alice", "x", Json.obj [("priority", Json.str "low"), ("k", Json.num 1)], 0⟩
        "f" ⟨0, "t"⟩).1.state "last_message_from_alice"
      = some (Json.obj [("priority", Json.str "low"), ("k", Json.num 1)])
    ∧ Json.obj [("priority", Json.str "high"), ("k", Json.num 1)]
      ≠ Json.obj [("priority", Json.str "low"), ("k", Json.num 1)] := by
  refine ⟨?_, ?_, ?_⟩ <;> decide

/-- C9 (amended): the dispatch path is identical whatever the priority
value — for every message the handler equals the standard path applied to
the unchanged message (so the high-priority path equals the standard
path, and an unrecognized priority is processed as normal, never
rejected); the states can differ across priority values only because the
payload stored verbatim embeds the priority field. -/
theorem claim9_priority_dispatch :
    (∀ (env : LlmEnv) (ag : AgentProcess) (m : Message) (fresh : String) (clock : Clock),
      handleAgentMessage env ag m fresh clock =
        process_message_standard env { ag with message_count := ag.message_count + 1 }
          m fresh clock)
    ∧ (∀ (env : LlmEnv) (ag : AgentProcess) (m : Message) (fresh : String) (clock : Clock),
      process_message_immediately env ag m fresh clock =
        process_message_standard env ag m fresh clock) :=
  ⟨handleAgentMessage_eq_standard, fun _ _ _ _ _ => rfl⟩

/-- C8: a summarize task without a data field, on an LLM-enabled agent,
yields exactly one operation record whose terminal status is failed, no
provider attempt (the attempt counter is 0), and no write to the state
map — in particular no last_summary key. -/
theorem claim8_missing_data_failed (env : LlmEnv) (ag : AgentProcess) (m : Message)
    (fresh : String) (clock : Clock)
    (hllm : ag.config.llm_enabled = true)
    (htask : (m.payload.get "llm_task").bind Json.asStr = some "summarize")
    (hdata : m.payload.get "data" = none)
    (hfresh : kvLookup ag.llm_operations fresh = none) :
    handleAgentMessage env ag m fresh clock =
      ({ ag with message_count := ag.message_count + 1,
                 llm_operations := kvInsert fresh "failed" ag.llm_operations }, 0)
    ∧ (kvInsert fresh "failed" ag.llm_operations).length = ag.llm_operations.length + 1
    ∧ kvLookup (kvInsert fresh "failed" ag.llm_operations) fresh = some "failed" := by
  refine ⟨?_, kvInsert_length_of_fresh fresh "failed" ag.llm_operations hfresh,
    kvLookup_kvInsert_self fresh "failed" ag.llm_operations⟩
  rw [handleAgentMessage_eq_standard]
  simp only [process_message_standard, htask, hllm, if_true, handle_llm_task,
    Option.getD_some, handle_summarization_task, hdata, kvInsert_kvInsert_same]

/-- Witness for C8: a concrete LLM-enabled agent receiving summarize with
no data — one failed record, untouched state, zero provider calls. -/
theorem claim8_witness :
    handleAgentMessage ⟨none, none, none⟩
        ⟨"x", [], 0, ⟨"x", .inMemory, false, true, .generic⟩, []⟩
        ⟨"m1", "alice", "x", Json.obj [("llm_task", Json.str "summarize")], 0⟩
        "op1" ⟨0, "t"⟩
      = (⟨"x", [], 1, ⟨"x", .inMemory, false, true, .generic⟩, [("op1", "failed")]⟩, 0) :=
  (claim8_missing_data_failed ⟨none, none, none⟩
    ⟨"x", [], 0, ⟨"x", .inMemory, false, true, .generic⟩, []⟩
    ⟨"m1", "alice", "x", Json.obj [("llm_task", Json.str "summarize")], 0⟩
    "op1" ⟨0, "t"⟩ rfl (by decide) (by decide) (by decide)).1

/-- Counterexample for C1: with no API keys configured (the provider call
fails), the plan_workflow executor stores the fixed 4-step fallback plan
under workflow_plan with terminal status completed_fallback, but that
stored content contains NO embedded fallback marker string — no string in
it mentions FALLBACK. -/
theorem claim1_counterexample :
    handle_llm_task ⟨none, none, none⟩
        ⟨"x", [], 0, ⟨"x", .inMemory, false, true, .generic⟩, []⟩
        (Json.obj [("llm_task", Json.str "plan_workflow"),
                   ("task_description", Json.str "collect data")]) "op1"
      = (⟨"x", [("workflow_plan", enhancedFallbackWorkflow)], 0,
          ⟨"x", .inMemory, false, true, .generic⟩, [("op1", "completed_fallback")]⟩, 1)
    ∧ jsonMentions "FALLBACK" enhancedFallbackWorkflow = false := by
  refine ⟨?_, ?_⟩ <;> decide

/-- C1 (amended): when no LLM API keys are configured, so every provider
call fails, each of the three tasks (with its required field present)
stores locally synthesized fallback content under its result key and
records the invocation with terminal status completed_fallback, and no
error reaches the router (the handlers are total and return the updated
state); the stored content embeds the FALLBACK marker for summarize and
reason, while the plan_workflow fallback is the fixed 4-step plan, which
carries no marker (see the counterexample). -/
theorem claim1_fallback_absorbed (env : LlmEnv) (ag : AgentProcess) (opId : String)
    (pS pW pR : Json) (d : Json) (desc prm : String)
    (hk1 : env.openai_api_key = none) (hk2 : env.anthropic_api_key = none)
    (hS : (pS.get "llm_task").bind Json.asStr = some "summarize")
    (hSd : pS.get "data" = some d)
    (hW : (pW.get "llm_task").bind Json.asStr = some "plan_workflow")
    (hWd : (pW.get "task_description").bind Json.asStr = some desc)
    (hR : (pR.get "llm_task").bind Json.asStr = some "reason")
    (hRp : (pR.get "prompt").bind Json.asStr = some prm) :
    handle_llm_task env ag pS opId =
      ({ ag with state := kvInsert "last_summary" (.str (mockSummary (dataCount d))) ag.state,
                 llm_operations := kvInsert opId "completed_fallback" ag.llm_operations }, 1)
    ∧ strContains "FALLBACK" (mockSummary (dataCount d)) = true
    ∧ handle_llm_task env ag pW opId =
      ({ ag with state := kvInsert "workflow_plan" enhancedFallbackWorkflow ag.state,
                 llm_operations := kvInsert opId "completed_fallback" ag.llm_operations }, 1)
    ∧ handle_llm_task env ag pR opId =
      ({ ag with state := kvInsert "last_reasoning" (.str (enhancedFallbackReasoning prm)) ag.state,
                 llm_operations := kvInsert opId "completed_fallback" ag.llm_operations }, 1)
    ∧ strContains "FALLBACK" (enhancedFallbackReasoning prm) = true := by
  refine ⟨?_, ?_, ?_, ?_, ?_⟩
  · simp only [handle_llm_task, hS, Option.getD_some, handle_summarization_task, hSd,
      try_real_llm_summarization, hk1, kvInsert_kvInsert_same]
  · have h1 : strContains "FALLBACK" "[FALLBACK] Enhanced summary: Analyzed " = true := by
      decide
    exact strContains_append_left _ _ _ (strContains_append_left _ _ _ h1)
  · simp only [handle_llm_task, hW, Option.getD_some, handle_workflow_planning_task, hWd,
      try_real_llm_workflow_planning, hk1, hk2, Option.isSome_none, Bool.or_self,
      Bool.false_eq_true, if_false, kvInsert_kvInsert_same]
  · simp only [handle_llm_task, hR, Option.getD_some, handle_reasoning_task, hRp,
      try_real_llm_reasoning, hk1, hk2, Option.isSome_none, Bool.or_self,
      Bool.false_eq_true, if_false, kvInsert_kvInsert_same]
  · have h1 : strContains "FALLBACK"
        "[ENHANCED-FALLBACK] Deep reasoning analysis for prompt: " = true := by
      decide
    exact strContains_append_left _ _ _ (strContains_append_left _ _ _
      (strContains_append_left _ _ _ (strContains_append_left _ _ _ h1)))

set_option maxRecDepth 4000 in
/-- Witness for C1 (amended): concrete summarize and reason tasks with the
provider unavailable — marked fallback content is stored and the
operation records end completed_fallback. -/
theorem claim1_witness :
    kvLookup (handle_llm_task ⟨none, none, none⟩
        ⟨"x", [], 0, ⟨"x", .inMemory, false, true, .generic⟩, []⟩
        (Json.obj [("llm_task", Json.str "summarize"),
                   ("data", Json.arr [Json.num 1, Json.num 2])]) "op1").1.state "last_summary"
      = some (Json.str (mockSummary 2))
    ∧ strContains "FALLBACK" (mockSummary 2) = true
    ∧ kvLookup (handle_llm_task ⟨none, none, none⟩
        ⟨"x", [], 0, ⟨"x", .inMemory, false, true, .generic⟩, []⟩
        (Json.obj [("llm_task", Json.str "reason"),
                   ("prompt", Json.str "why")]) "op1").1.llm_operations "op1"
      = some "completed_fallback" := by
  have h := claim1_fallback_absorbed ⟨none, none, none⟩
    ⟨"x", [], 0, ⟨"x", .inMemory, false, true, .generic⟩, []⟩ "op1"
    (Json.obj [("llm_task", Json.str "summarize"), ("data", Json.arr [Json.num 1, Json.num 2])])
    (Json.obj [("llm_task", Json.str "plan_workflow"), ("task_description", Json.str "t")])
    (Json.obj [("llm_task", Json.str "reason"), ("prompt", Json.str "why")])
    (Json.arr [Json.num 1, Json.num 2]) "t" "why"
    rfl rfl (by decide) (by decide) (by decide) (by decide) (by decide) (by decide)
  refine ⟨?_, ?_, ?_⟩
  · rw [h.1]
    decide
  · exact h.2.1
  · rw [h.2.2.2.1]
    decide

end LunaticNats
